import Mathlib

/-!
Verification of the llm-api completion orchestration engine.

This file gives a shallow embedding of the per-provider `chatCompletion`
orchestrators of the llm-api repository (OpenAI tool-calling, OpenAI legacy
function-calling, OpenAI edge with explicit retry loop, Anthropic native,
Anthropic-over-Bedrock, Groq) and proves properties of the token budget
guard, the retry/backoff controller, the streaming aggregation, the outcome
classification and the `respond` continuation closure.

External collaborators (the HTTP transport, the tiktoken encoder, the
lenient JSON parser `parseUnsafeJson`, `JSON.stringify`) are treated as
black boxes: they enter the model as function parameters or as raw strings,
never as reimplementations.
-/

namespace LlmApi

/-! ## Data model (src/types.ts) -/

/-- `ChatRequestRole` from src/types.ts. -/
inductive Role where
  | system
  | user
  | assistant
  | tool
deriving DecidableEq, Repr

/-- The string form of a role, as it appears in wire payloads and error
messages. -/
def Role.name : Role → String
  | .system => "system"
  | .user => "user"
  | .assistant => "assistant"
  | .tool => "tool"

/-- The `function` component of `ChatRequestToolCall` from src/types.ts:
`name` plus `arguments` as raw JSON text. -/
structure ToolCallFunction where
  name : String
  arguments : String
deriving DecidableEq, Repr

/-- `ChatRequestToolCall` from src/types.ts. In the TypeScript type the
`type` field is the literal "function"; we carry it as a string so that the
streamed reconstruction can be compared byte for byte. -/
structure ToolCall where
  id : String
  type : String
  function : ToolCallFunction
deriving DecidableEq, Repr

/-- The in-flight shape of a tool call: the accumulator produced by the
streamed reduce of src/models/openai.ts lines 226-238, whose `id` and
`type` may still be absent (the source papers over this with an `as` cast),
while `name` and `arguments` are strings. A fully formed `ToolCall` embeds
into this shape via `accOfToolCall`. -/
structure ToolCallAcc where
  id : Option String
  type : Option String
  name : String
  arguments : String
deriving DecidableEq, Repr

/-- The embedding of a fully formed tool call (authored by the caller, or
read off a non-streamed response body) into the in-flight shape. -/
def accOfToolCall (c : ToolCall) : ToolCallAcc :=
  ⟨some c.id, some c.type, c.function.name, c.function.arguments⟩

/-- `ChatRequestMessage` from src/types.ts. `toolCall` is carried in the
in-flight shape so that received turns built from streamed calls (which the
source casts) are representable. -/
structure Message where
  role : Role
  content : Option String := none
  toolCall : Option ToolCallAcc := none
  toolCallId : Option String := none
deriving DecidableEq, Repr

/-- JavaScript truthiness of an optional string: `undefined` and the empty
string are falsy. -/
def truthyStr (o : Option String) : Bool :=
  o.getD "" ≠ ""

/-- JavaScript truthiness of an optional number field (here a Nat):
`undefined` and `0` are falsy. -/
def truthyNat (o : Option Nat) : Bool :=
  o.getD 0 ≠ 0

/-- Model of the external JavaScript builtin `String.prototype.trim`:
leading and trailing whitespace removed (structural recursion over the
character list, so that concrete instances compute). -/
def jsTrim (s : String) : String :=
  ⟨((s.data.dropWhile Char.isWhitespace).reverse.dropWhile Char.isWhitespace).reverse⟩

/-- Structurally recursive worker for `jsReplaceAll`: the fuel starts at
the length of the subject and bounds the recursion depth. -/
def replaceAllFuel : Nat → List Char → List Char → List Char → List Char
  | 0, s, _, _ => s
  | _, [], _, _ => []
  | fuel + 1, c :: rest, pat, repl =>
    if pat ≠ [] ∧ pat.isPrefixOf (c :: rest) then
      repl ++ replaceAllFuel fuel ((c :: rest).drop pat.length) pat repl
    else c :: replaceAllFuel fuel rest pat repl

/-- Model of the external JavaScript builtin `String.prototype.replaceAll`
with a plain-string pattern: every occurrence of `pat` replaced by `repl`,
scanning left to right. -/
def jsReplaceAll (s pat repl : String) : String :=
  ⟨replaceAllFuel s.data.length s.data pat.data repl.data⟩

/-! ## Streamed tool-call aggregation (src/models/openai.ts lines 224-239)

A streamed delta may carry any subset of the tool call fields; the
orchestrator pushes each fragment and, at stream end, reduces the fragment
list by field. `ToolCallPart` models `Partial<ChatRequestToolCall>` with the
nested `function` object flattened: `fname`/`fargs` stand for
`part.function?.name` and `part.function?.arguments` (both `none` when the
`function` object itself is absent). -/

structure ToolCallPart where
  id : Option String := none
  type : Option String := none
  fname : Option String := none
  fargs : Option String := none
deriving DecidableEq, Repr

/-- One step of the reduce in src/models/openai.ts lines 227-236:
`id: prev.id ?? part.id`, `type: prev.type ?? part.type`,
`name: (prev.function?.name ?? '') + (part.function?.name ?? '')`,
`arguments: (prev.function?.arguments ?? '') + (part.function?.arguments ?? '')`. -/
def toolCallReduceStep (prev : ToolCallAcc) (part : ToolCallPart) : ToolCallAcc :=
  { id := prev.id <|> part.id
    type := prev.type <|> part.type
    name := prev.name ++ part.fname.getD ""
    arguments := prev.arguments ++ part.fargs.getD "" }

/-- `toolCallStreamParts.reduce(..., {})` from src/models/openai.ts lines
226-238. The initial accumulator `{}` has every field absent, so the name
and arguments components start from the empty string. -/
def aggregateToolCallParts (parts : List ToolCallPart) : ToolCallAcc :=
  parts.foldl toolCallReduceStep ⟨none, none, "", ""⟩

/-- Concatenation, in arrival order, of one optional string field of the
fragments; absent fields contribute the empty string. -/
def concatField (f : ToolCallPart → Option String) : List ToolCallPart → String
  | [] => ""
  | p :: rest => (f p).getD "" ++ concatField f rest

/-- A fragment list is a split of the tool call `c` when the first fragment
carrying an `id` carries the id of `c`, likewise for `type`, and the `name`
and `arguments` fields of the fragments concatenate (in arrival order) to
the name and arguments of `c`. This is the shape in which providers stream
a single call across several chunks. -/
def IsSplitOf (parts : List ToolCallPart) (c : ToolCall) : Prop :=
  parts.findSome? (·.id) = some c.id ∧
  parts.findSome? (·.type) = some c.type ∧
  concatField (·.fname) parts = c.function.name ∧
  concatField (·.fargs) parts = c.function.arguments

instance (parts : List ToolCallPart) (c : ToolCall) : Decidable (IsSplitOf parts c) := by
  unfold IsSplitOf
  infer_instance

/-! ## Streaming loop accumulators (src/models/openai.ts lines 202-239) -/

/-- One streamed chunk as seen by the loop: `text` models
`part.choices[0]?.delta?.content` and `call` models
`part.choices[0]?.delta?.tool_calls?.[0]`. -/
structure StreamChunk where
  text : Option String := none
  call : Option ToolCallPart := none
deriving DecidableEq, Repr

/-- One iteration of the `for await` loop of src/models/openai.ts lines
203-222: a truthy text delta is appended to the content buffer, otherwise a
present tool-call delta is pushed onto the fragment list, otherwise the
chunk is ignored. -/
def streamStep (acc : String × List ToolCallPart) (ch : StreamChunk) :
    String × List ToolCallPart :=
  if truthyStr ch.text then (acc.1 ++ ch.text.getD "", acc.2)
  else
    match ch.call with
    | some c => (acc.1, acc.2 ++ [c])
    | none => acc

/-- The whole streaming loop: fold `streamStep` over the chunks starting
from an empty content buffer and an empty fragment list. -/
def runStream (chunks : List StreamChunk) : String × List ToolCallPart :=
  chunks.foldl streamStep ("", [])

/-! ## Configuration and request options (src/types.ts, src/config.ts) -/

/-- `ModelConfig` from src/types.ts, restricted to the fields the
orchestrators read on the paths under verification: `contextSize` and
`stream`. Sampling parameters only flow into the wire body. -/
structure ModelConfig where
  contextSize : Option Nat := none
  stream : Bool := false
deriving DecidableEq, Repr

/-- `ModelFunction` from src/types.ts. The `parameters` JSON-schema object
is opaque to the orchestrators (it only flows into the wire body and into
`JSON.stringify` inside the external tokenizer), so it is carried as its
serialized text. -/
structure ModelFunction where
  name : String
  parametersJson : String
  description : Option String := none
deriving DecidableEq, Repr

/-- `ModelRequestOptions` from src/types.ts, restricted to the fields the
orchestrators read. A `systemMessage` thunk is resolved to the string it
returns (the source invokes it once per call); the `events` emitter and the
`stop` sequences only flow outward and carry no decision logic. `retries`
is an Int because the retry chain of the edge orchestrator decrements it
below zero on the 429 path. -/
structure RequestOptions where
  systemMessage : Option String := none
  responsePrefix : Option String := none
  functions : Option (List ModelFunction) := none
  callFunction : Option String := none
  retries : Option Int := none
  retryInterval : Option Nat := none
  timeout : Option Nat := none
  minimumResponseTokens : Option Nat := none
  maximumResponseTokens : Option Nat := none
deriving DecidableEq, Repr

/-- src/config.ts: `CompletionDefaultRetries = 3`. -/
def CompletionDefaultRetries : Int := 3

/-- src/config.ts: `CompletionDefaultTimeout = 300_000`. -/
def CompletionDefaultTimeout : Nat := 300000

/-- src/config.ts: `MinimumResponseTokens = 200`. -/
def MinimumResponseTokens : Nat := 200

/-- src/config.ts: `MaximumResponseTokens = 4_096`. -/
def MaximumResponseTokens : Nat := 4096

/-- Modelled from the spec: the edge/bedrock orchestrators import
`RateLimitRetryIntervalMs` from ../config, and the config revision carrying
that constant is not among the source files; the spec only describes it as
the default initial retry interval. Its value decides no claim (the backoff
theorems quantify over the initial interval), so it is fixed here to keep
the model executable. -/
def RateLimitRetryIntervalMs : Nat := 30000

/-- `TokenError` from src/models/errors.ts. Modelled from the spec: that
file is not among the source files; the spec describes the error as
carrying a message and the token overage amount, and every construction
site in the orchestrators passes `messageTokens - maxPromptTokens`. -/
structure TokenErr where
  message : String
  overflowTokens : Int
deriving DecidableEq, Repr

/-- Usage statistics of a `ChatResponse` (src/types.ts). -/
structure Usage where
  promptTokens : Nat
  completionTokens : Nat
  totalTokens : Nat
deriving DecidableEq, Repr

/-! ## Token budget guard (shared shape of every orchestrator) -/

/-- The prompt token budget, e.g. src/models/openai.ts lines 114-116:
`contextSize ? contextSize - minimumResponseTokens : 100_000`. The
subtraction is over Int, as in JavaScript. -/
def maxPromptTokens (contextSize : Option Nat) (minimumResponseTokens : Nat) : Int :=
  if truthyNat contextSize then (contextSize.getD 0 : Int) - (minimumResponseTokens : Int)
  else 100000

/-- The message text the estimator sees for one message:
`m.content ?? ''`. -/
def messageText (m : Message) : String :=
  m.content.getD ""

/-- System message injection of src/models/openai.ts lines 92-103 (same
shape in openai-legacy.ts lines 90-101, part_003 lines 109-120 and
anthropic-bedrock.ts lines 60-72): a truthy systemMessage is prepended as a
system-role message. -/
def injectSystemMessage (systemMessage : Option String) (initialMessages : List Message) :
    List Message :=
  if truthyStr systemMessage then
    ⟨Role.system, some (systemMessage.getD ""), none, none⟩ :: initialMessages
  else initialMessages

/-- The max_tokens calculation of src/models/openai.ts lines 131-137 (same
in openai-legacy.ts lines 129-135 and part_003 lines 156-163): defined only
when both `contextSize` and `maximumResponseTokens` are truthy, as
`Math.min(contextSize - maxPromptTokens, maximumResponseTokens)`; otherwise
no max_tokens value is put in the request body. -/
def openAIMaxTokens (contextSize : Option Nat) (minimumResponseTokens : Nat)
    (maximumResponseTokens : Option Nat) : Option Int :=
  let maxPrompt := maxPromptTokens contextSize minimumResponseTokens
  if truthyNat contextSize && truthyNat maximumResponseTokens then
    some (min ((contextSize.getD 0 : Int) - maxPrompt) ((maximumResponseTokens.getD 0 : Int)))
  else none

/-! ## Response envelope and the respond continuation (src/types.ts,
builder sites in each orchestrator) -/

/-- How the respond closure wraps a bare-string follow-up: as a user
message (text envelopes, and every legacy/edge envelope), or as a tool
message referencing the pending call id (tool-call envelopes of
src/models/openai.ts lines 296-299). -/
inductive WrapRule where
  | asUser
  | asTool (id : Option String)
deriving DecidableEq, Repr

/-- `ChatResponse` from src/types.ts. The `respond` closure is carried as
data: `respondBase` is the history list the closure spreads (already
including the received assistant turn), `wrapRule` is how it wraps a bare
string, and `respondOptions` is the `requestOptions` value it falls back to
when no override is given. `argumentsRaw` is the raw arguments text; the
source exposes `parseUnsafeJson` of it, an external lenient parser. -/
structure ChatResponse where
  message : Message
  content : Option String := none
  toolCallId : Option String := none
  name : Option String := none
  argumentsRaw : Option String := none
  usage : Option Usage := none
  respondBase : List Message
  wrapRule : WrapRule
  respondOptions : Option RequestOptions
deriving DecidableEq, Repr

/-- The message a respond closure appends for the follow-up argument:
a `Message` is passed through, a bare string is wrapped per the rule
(src/models/openai.ts lines 266-268 and 296-299). -/
def wrapFollowup : WrapRule → String ⊕ Message → Message
  | _, .inr m => m
  | .asUser, .inl s => ⟨Role.user, some s, none, none⟩
  | .asTool id, .inl s => ⟨Role.tool, some s, none, id⟩

/-- The history `respond(followup)` hands to the recursive chatCompletion
call: the captured base list followed by the wrapped follow-up. -/
def respondHistory (r : ChatResponse) (followup : String ⊕ Message) : List Message :=
  r.respondBase ++ [wrapFollowup r.wrapRule followup]

/-- The options `respond(followup, opt)` hands to the recursive call:
`opt ?? requestOptions`. -/
def respondOptionsUsed (r : ChatResponse) (opt : Option RequestOptions) :
    Option RequestOptions :=
  opt <|> r.respondOptions

/-! ## Errors and call outcomes -/

/-- The failure modes of a chatCompletion call, as one type across the
provider orchestrators. -/
inductive LlmErr where
  | tokenError (e : TokenErr)
  | malformed (message : String)
  | roleError (message : String)
  | authorization
  | responseError
  | transport (code : Option String)
deriving DecidableEq, Repr

instance {ε α : Type} [DecidableEq ε] [DecidableEq α] : DecidableEq (Except ε α) :=
  fun a b =>
    match a, b with
    | .ok x, .ok y =>
      if h : x = y then .isTrue (by rw [h]) else .isFalse (by simp [h])
    | .error x, .error y =>
      if h : x = y then .isTrue (by rw [h]) else .isFalse (by simp [h])
    | .ok _, .error _ => .isFalse (by simp)
    | .error _, .ok _ => .isFalse (by simp)

/-- Result of one chatCompletion call together with the number of network
requests the call itself issued (the pre-flight token failure issues
zero). -/
structure CallOutcome where
  requests : Nat
  result : Except LlmErr ChatResponse
deriving DecidableEq, Repr

/-! ## OpenAI tool-calling orchestrator (src/models/openai.ts) -/

/-- The provider transport of src/models/openai.ts, as a black box: in
stream mode the SDK yields a chunk sequence; otherwise one body with
`choices[0].message.content`, `choices[0].message.tool_calls` and optional
usage. -/
inductive OpenAINet where
  | streamed (chunks : List StreamChunk)
  | plain (content : Option String) (toolCalls : List ToolCall) (usage : Option Usage)
deriving DecidableEq, Repr

/-- Outcome classification of src/models/openai.ts lines 253-313: a truthy
completion text yields a text envelope (content set, assistant turn, string
follow-ups wrapped as user messages); otherwise a present tool call yields
a call envelope (toolCallId/name/arguments set, string follow-ups wrapped
as tool messages with the call id); otherwise the call throws
`Completion response malformed`. The respond closure spreads `messages`
(the provider-composed list) plus the received turn. -/
def classifyOpenAI (messages : List Message) (requestOptions : RequestOptions)
    (completion : String) (toolCall : Option ToolCallAcc) (usage : Option Usage) :
    Except String ChatResponse :=
  if completion ≠ "" then
    let receivedMessage : Message := ⟨Role.assistant, some completion, none, none⟩
    .ok { message := receivedMessage
          content := some completion
          usage := usage
          respondBase := messages ++ [receivedMessage]
          wrapRule := .asUser
          respondOptions := some requestOptions }
  else
    match toolCall with
    | some c =>
      let receivedMessage : Message := ⟨Role.assistant, some "", some c, none⟩
      .ok { message := receivedMessage
            toolCallId := c.id
            name := some c.name
            argumentsRaw := some c.arguments
            usage := usage
            respondBase := messages ++ [receivedMessage]
            wrapRule := .asTool c.id
            respondOptions := some requestOptions }
    | none => .error "Completion response malformed"

/-- `OpenAIChatApi.chatCompletion` of src/models/openai.ts, parameterized
over the external tokenizer and the transport. Stages, in source order:
merge option defaults, inject the system message, run the token budget
guard (lines 113-127, before any request), then either aggregate the
stream (lines 188-241) or read one body (lines 242-251), and classify.
The max_tokens sent with the request is `openAIMaxTokens` (lines 129-145);
retries and timeout are delegated to the SDK and are not part of this
orchestrator. -/
def openAIChatCompletion (tokens : List String → Option (List ModelFunction) → Nat)
    (cfg : ModelConfig) (net : OpenAINet)
    (initialMessages : List Message) (requestOptions : RequestOptions) : CallOutcome :=
  let minResp := requestOptions.minimumResponseTokens.getD MinimumResponseTokens
  let messages := injectSystemMessage requestOptions.systemMessage initialMessages
  let maxPrompt := maxPromptTokens cfg.contextSize minResp
  let messageTokens := tokens (messages.map messageText) requestOptions.functions
  if (messageTokens : Int) > maxPrompt then
    ⟨0, .error (.tokenError ⟨"Prompt too big, not enough tokens to meet minimum response",
      (messageTokens : Int) - maxPrompt⟩)⟩
  else
    let step : String × Option ToolCallAcc × Option Usage :=
      match net with
      | .streamed chunks =>
        let r := runStream chunks
        (r.1, if r.2.length > 0 then some (aggregateToolCallParts r.2) else none, none)
      | .plain content toolCalls usage =>
        (content.getD "", (toolCalls.head?).map accOfToolCall, usage)
    match classifyOpenAI messages requestOptions step.1 step.2.1 step.2.2 with
    | .ok resp => ⟨1, .ok resp⟩
    | .error e => ⟨1, .error (.malformed e)⟩

/-! ## OpenAI legacy function-calling orchestrator
(src/models/openai-legacy.ts) -/

/-- Outcome classification of src/models/openai-legacy.ts lines 241-299.
Differences from the tool-calling variant: the call envelope exposes
name/arguments but no toolCallId, the received turn carries a synthesized
tool call `{type: function, id: "1"}` around the function call, and string
follow-ups are always wrapped as user messages. -/
def classifyOpenAILegacy (messages : List Message) (requestOptions : RequestOptions)
    (completion : String) (functionCall : Option ToolCallFunction) (usage : Option Usage) :
    Except String ChatResponse :=
  if completion ≠ "" then
    let receivedMessage : Message := ⟨Role.assistant, some completion, none, none⟩
    .ok { message := receivedMessage
          content := some completion
          usage := usage
          respondBase := messages ++ [receivedMessage]
          wrapRule := .asUser
          respondOptions := some requestOptions }
  else
    match functionCall with
    | some fc =>
      let receivedMessage : Message :=
        ⟨Role.assistant, some "", some ⟨some "1", some "function", fc.name, fc.arguments⟩, none⟩
      .ok { message := receivedMessage
            name := some fc.name
            argumentsRaw := some fc.arguments
            usage := usage
            respondBase := messages ++ [receivedMessage]
            wrapRule := .asUser
            respondOptions := some requestOptions }
    | none => .error "Completion response malformed"

/-! ## Anthropic native orchestrator (src/models/anthropic.ts) -/

/-- The Anthropic transport as a black box: in stream mode the loop of
src/models/anthropic.ts lines 129-149 appends each index-0 text block
start/delta; otherwise one body whose `content[0].text` is read. Either
way only the accumulated completion string matters downstream. -/
inductive AnthropicNet where
  | streamed (texts : List String)
  | plain (text : String)
deriving DecidableEq, Repr

/-- The completion accumulated from the transport by
src/models/anthropic.ts lines 115-162. -/
def anthropicAccumulated : AnthropicNet → String
  | .streamed texts => String.join texts
  | .plain text => text

/-- The prefill appending of src/models/anthropic.ts lines 50-60: a truthy
responsePrefix becomes a trailing assistant message. -/
def appendPrefill (respPrefix : Option String) (initialMessages : List Message) :
    List Message :=
  if truthyStr respPrefix then
    initialMessages ++ [⟨Role.assistant, some (respPrefix.getD ""), none, none⟩]
  else initialMessages

/-- Content finalization of src/models/anthropic.ts lines 164-167: prepend
a supplied responsePrefix verbatim, else trim the accumulated completion. -/
def anthropicFinalContent (respPrefix : Option String) (completion : String) : String :=
  if truthyStr respPrefix then respPrefix.getD "" ++ completion
  else jsTrim completion

/-- The wire message filter of src/models/anthropic.ts lines 100-108: only
user or assistant messages with truthy content are kept; every other
message is removed by this filter (the defined substitution rule for roles
Anthropic does not support). -/
def anthropicWireMessages (messages : List Message) : List (Role × String) :=
  (messages.filter fun m =>
      (m.role == Role.user || m.role == Role.assistant) && truthyStr m.content).map
    fun m => (m.role, m.content.getD "")

/-- `AnthropicChatApi.chatCompletion` of src/models/anthropic.ts. Stages:
merge defaults, append the prefill turn, token budget guard (lines 70-83,
before any request), accumulate the completion, finalize content
(lines 164-170, malformed when empty), and build the envelope whose
respond closure spreads the original `initialMessages` (lines 179-190),
deliberately not the processed list. -/
def anthropicChatCompletion (tokens : List String → Option (List ModelFunction) → Nat)
    (cfg : ModelConfig) (net : AnthropicNet)
    (initialMessages : List Message) (requestOptions : Option RequestOptions) : CallOutcome :=
  let opts := requestOptions.getD {}
  let minResp := opts.minimumResponseTokens.getD MinimumResponseTokens
  let messages := appendPrefill opts.responsePrefix initialMessages
  let maxPrompt := maxPromptTokens cfg.contextSize minResp
  let messageTokens := tokens (messages.map messageText) none
  if (messageTokens : Int) > maxPrompt then
    ⟨0, .error (.tokenError ⟨"Prompt too big, not enough tokens to meet minimum response",
      (messageTokens : Int) - maxPrompt⟩)⟩
  else
    let content := anthropicFinalContent opts.responsePrefix (anthropicAccumulated net)
    if content = "" then ⟨1, .error (.malformed "Completion response malformed")⟩
    else
      let receivedMessage : Message := ⟨Role.assistant, some content, none, none⟩
      ⟨1, .ok { message := receivedMessage
                content := some content
                respondBase := initialMessages ++ [receivedMessage]
                wrapRule := .asUser
                respondOptions := requestOptions }⟩

/-! ## Groq orchestrator (the GroqChatApi variant in the source pack) -/

/-- Content finalization of the Groq orchestrator (GroqChatApi lines
172-177): prepend a supplied responsePrefix verbatim, else use the
accumulated completion unchanged - this variant does not trim. -/
def groqFinalContent (respPrefix : Option String) (completion : String) : String :=
  if truthyStr respPrefix then respPrefix.getD "" ++ completion
  else completion

/-- `GroqChatApi.chatCompletion`. Stages: merge defaults, compose the
message list as optional system message + initial messages + optional
prefill turn (lines 77-94), token budget guard, accumulate the completion
(stream deltas use `?? ''`), finalize without trimming, and build the
envelope whose respond closure spreads the processed `messages` list
(lines 186-196). -/
def groqChatCompletion (tokens : List String → Option (List ModelFunction) → Nat)
    (cfg : ModelConfig) (net : AnthropicNet)
    (initialMessages : List Message) (requestOptions : Option RequestOptions) : CallOutcome :=
  let opts := requestOptions.getD {}
  let minResp := opts.minimumResponseTokens.getD MinimumResponseTokens
  let messages := appendPrefill opts.responsePrefix
    (injectSystemMessage opts.systemMessage initialMessages)
  let maxPrompt := maxPromptTokens cfg.contextSize minResp
  let messageTokens := tokens (messages.map messageText) none
  if (messageTokens : Int) > maxPrompt then
    ⟨0, .error (.tokenError ⟨"Prompt too big, not enough tokens to meet minimum response",
      (messageTokens : Int) - maxPrompt⟩)⟩
  else
    let content := groqFinalContent opts.responsePrefix (anthropicAccumulated net)
    if content = "" then ⟨1, .error (.malformed "Completion response malformed")⟩
    else
      let receivedMessage : Message := ⟨Role.assistant, some content, none, none⟩
      ⟨1, .ok { message := receivedMessage
                content := some content
                respondBase := messages ++ [receivedMessage]
                wrapRule := .asUser
                respondOptions := requestOptions }⟩

/-! ## Anthropic-over-Bedrock orchestrator (src/models/anthropic-bedrock.ts) -/

/-- `HUMAN_PROMPT` of the Anthropic SDK. -/
def HUMAN_PROMPT : String := "\n\nHuman:"

/-- `AI_PROMPT` of the Anthropic SDK. -/
def AI_PROMPT : String := "\n\nAssistant:"

/-- src/models/anthropic-bedrock.ts line 28: the trimmed turn markers that
are stripped from user-supplied content. -/
def ForbiddenTokens : List String := [jsTrim HUMAN_PROMPT, jsTrim AI_PROMPT]

/-- The forbidden-token stripping of src/models/anthropic-bedrock.ts lines
77-83: `message.content && ForbiddenTokens.reduce((prev, token) =>
prev.replaceAll(token, ''), message.content)` - absent or empty content is
passed through (the `&&` short-circuit), other content has every occurrence
of each marker removed. -/
def stripForbidden (content : Option String) : Option String :=
  match content with
  | none => none
  | some s =>
    if s = "" then some ""
    else some (ForbiddenTokens.foldl (fun prev token => jsReplaceAll prev token "") s)

/-- A JavaScript template literal rendering of an optional string:
`undefined` renders as the text "undefined". -/
def jsTemplate (o : Option String) : String :=
  match o with
  | none => "undefined"
  | some s => s

/-- One arm of the role switch of src/models/anthropic-bedrock.ts lines
90-101: user and system messages become human turns, assistant messages
become assistant turns, and any other role throws an error naming it. -/
def bedrockTurn (m : Message) : Except String String :=
  match m.role with
  | .user => .ok (HUMAN_PROMPT ++ " " ++ jsTemplate m.content)
  | .assistant => .ok (AI_PROMPT ++ " " ++ jsTemplate m.content)
  | .system => .ok (HUMAN_PROMPT ++ " " ++ jsTemplate m.content)
  | .tool => .error ("Anthropic models do not support message with the role " ++ Role.name .tool)

/-- The `messages.map` of the prompt builder, which stops at the first
message whose role has no arm (the thrown error aborts the map). -/
def bedrockTurns : List Message → Except String (List String)
  | [] => .ok []
  | m :: rest =>
    match bedrockTurn m with
    | .error e => .error e
    | .ok s =>
      match bedrockTurns rest with
      | .error e => .error e
      | .ok ss => .ok (s :: ss)

/-- The prompt of src/models/anthropic-bedrock.ts lines 87-107: the joined
turns, a trailing unterminated assistant marker, and the responsePrefix
(space-prefixed) when one is supplied. -/
def bedrockPrompt (messages : List Message) (respPrefix : Option String) :
    Except String String :=
  match bedrockTurns messages with
  | .error e => .error e
  | .ok turns =>
    .ok (String.join turns ++ AI_PROMPT ++
      (if truthyStr respPrefix then " " ++ respPrefix.getD "" else ""))

/-- `AnthropicBedrockChat.chatCompletion` of src/models/anthropic-bedrock.ts.
Stages: merge defaults, inject the system message, strip forbidden tokens,
build the single-string prompt (role errors are thrown here, before the
token guard and before any request), token budget guard over `[prompt]`,
then one request whose decoded body is returned as content; the respond
closure spreads the processed `messages` list plus an assistant turn (the
source envelope carries no `message` field; the assistant turn used by
respond is exposed here as `message`). -/
def bedrockChatCompletion (tokens : List String → Option (List ModelFunction) → Nat)
    (cfg : ModelConfig) (netBody : String)
    (initialMessages : List Message) (requestOptions : Option RequestOptions) : CallOutcome :=
  let opts := requestOptions.getD {}
  let messages := (injectSystemMessage opts.systemMessage initialMessages).map
    fun m => { m with content := stripForbidden m.content }
  match bedrockPrompt messages opts.responsePrefix with
  | .error e => ⟨0, .error (.roleError e)⟩
  | .ok prompt =>
    let minResp := opts.minimumResponseTokens.getD MinimumResponseTokens
    let maxPrompt := maxPromptTokens cfg.contextSize minResp
    let messageTokens := tokens [prompt] none
    if (messageTokens : Int) > maxPrompt then
      ⟨0, .error (.tokenError ⟨"Prompt too big, not enough tokens to meet minimum response",
        (messageTokens : Int) - maxPrompt⟩)⟩
    else
      let receivedMessage : Message := ⟨Role.assistant, some netBody, none, none⟩
      ⟨1, .ok { message := receivedMessage
                content := some netBody
                respondBase := messages ++ [receivedMessage]
                wrapRule := .asUser
                respondOptions := requestOptions }⟩

/-! ## OpenAI edge orchestrator with explicit retry loop (part_003)

This variant wraps the whole attempt in try/catch, classifies HTTP status
codes itself, and recurses for retries: on 429/5xx it sleeps the current
retry interval and re-invokes chatCompletion with the composed messages
and a fresh options object carrying `retries - 1` and a doubled
`retryInterval` (lines 199-210); the catch block re-raises when the retry
count is zero and otherwise retries only the transport codes ETIMEDOUT,
ECONNABORTED, ECONNRESET the same way (lines 360-382). -/

/-- The parsed body of one non-streaming edge response: `error` models a
truthy `body.error` or missing `choices` (line 288), and the remaining
fields model `choices[0].message` and `usage`. -/
structure EdgeBody where
  error : Bool := false
  content : Option String := none
  functionCall : Option ToolCallFunction := none
  usage : Option Usage := none
deriving DecidableEq, Repr

/-- What the transport does on one attempt: the fetch resolves with a
status and body, or rejects with an exception carrying an optional
`code`. -/
inductive AttemptResult where
  | http (status : Nat) (body : EdgeBody)
  | exn (code : Option String)
deriving DecidableEq, Repr

/-- The observable steps of an edge call: network requests and the sleeps
between retries. -/
inductive EdgeEvent where
  | request
  | sleep (ms : Nat)
deriving DecidableEq, Repr

/-- The retryable transport codes of part_003 lines 367-371. -/
def retryableCode (code : Option String) : Bool :=
  code == some "ETIMEDOUT" || code == some "ECONNABORTED" || code == some "ECONNRESET"

/-- Outcome classification of part_003 lines 301-359; the legacy
function-call shape, so the received turn carries the bare function call
(no id or type) and string follow-ups wrap as user messages. -/
def classifyEdge (messages : List Message) (requestOptions : RequestOptions)
    (body : EdgeBody) : Except LlmErr ChatResponse :=
  if truthyStr body.content then
    let content := body.content.getD ""
    let receivedMessage : Message := ⟨Role.assistant, some content, none, none⟩
    .ok { message := receivedMessage
          content := some content
          usage := body.usage
          respondBase := messages ++ [receivedMessage]
          wrapRule := .asUser
          respondOptions := some requestOptions }
  else
    match body.functionCall with
    | some fc =>
      let receivedMessage : Message :=
        ⟨Role.assistant, some "", some ⟨none, none, fc.name, fc.arguments⟩, none⟩
      .ok { message := receivedMessage
            name := some fc.name
            argumentsRaw := some fc.arguments
            usage := body.usage
            respondBase := messages ++ [receivedMessage]
            wrapRule := .asUser
            respondOptions := some requestOptions }
    | none => .error (.malformed "Completion response malformed")

/-- `OpenAIChatApi.chatCompletion` of part_003 (non-streaming path),
parameterized over the external tokenizer, the per-attempt transport plan
(consumed head-first) and a fuel bound on the recursion depth (the source
recursion is unbounded on the 429/5xx path, so a total model needs fuel;
`none` in the second component means the fuel ran out). Each level
re-merges defaults (`retries ?? 3`, `retryInterval ?? RateLimitRetryIntervalMs`),
re-injects the system message and re-runs the token guard, exactly as the
recursive call in the source re-enters the whole function with the
composed messages and the updated options object. -/
def edgeChatCompletion (tokens : List String → Option (List ModelFunction) → Nat)
    (cfg : ModelConfig) :
    Nat → List AttemptResult → List Message → RequestOptions →
    List EdgeEvent × Option (Except LlmErr ChatResponse)
  | 0, _, _, _ => ([], none)
  | fuel + 1, plan, initialMessages, opts =>
    let retries := opts.retries.getD CompletionDefaultRetries
    let retryInterval := opts.retryInterval.getD RateLimitRetryIntervalMs
    let messages := injectSystemMessage opts.systemMessage initialMessages
    let minResp := opts.minimumResponseTokens.getD MinimumResponseTokens
    let maxPrompt := maxPromptTokens cfg.contextSize minResp
    let messageTokens := tokens (messages.map messageText) opts.functions
    if (messageTokens : Int) > maxPrompt then
      ([], some (.error (.tokenError ⟨"Prompt too big, not enough tokens to meet minimum response",
        (messageTokens : Int) - maxPrompt⟩)))
    else
      match plan with
      | [] => ([.request], none)
      | attempt :: rest =>
        match attempt with
        | .exn code =>
          if retries = 0 then ([.request], some (.error (.transport code)))
          else if retryableCode code then
            let next := edgeChatCompletion tokens cfg fuel rest messages
              { opts with retries := some (retries - 1), retryInterval := some (retryInterval * 2) }
            (.request :: .sleep retryInterval :: next.1, next.2)
          else ([.request], some (.error (.transport code)))
        | .http status body =>
          if status = 401 then ([.request], some (.error .authorization))
          else if status = 429 ∨ 500 ≤ status then
            -- NOTE: the source consults no retry count on this branch.
            let next := edgeChatCompletion tokens cfg fuel rest messages
              { opts with retries := some (retries - 1), retryInterval := some (retryInterval * 2) }
            (.request :: .sleep retryInterval :: next.1, next.2)
          else if body.error then ([.request], some (.error .responseError))
          else ([.request], some (classifyEdge messages opts body))

/-! # Helper lemmas -/

/-- Componentwise value of the streamed tool-call reduce from an arbitrary
accumulator: ids and types keep the first present value, names and
arguments concatenate. -/
lemma foldl_toolCallReduceStep (parts : List ToolCallPart) (a : ToolCallAcc) :
    parts.foldl toolCallReduceStep a =
      ⟨a.id <|> parts.findSome? (·.id), a.type <|> parts.findSome? (·.type),
       a.name ++ concatField (·.fname) parts,
       a.arguments ++ concatField (·.fargs) parts⟩ := by
  induction parts generalizing a with
  | nil =>
    simp only [List.foldl_nil, List.findSome?_nil, concatField, String.append_empty]
    cases a with
    | mk i t n g => cases i <;> cases t <;> rfl
  | cons p rest ih =>
    rw [List.foldl_cons, ih]
    simp only [toolCallReduceStep, concatField, ToolCallAcc.mk.injEq]
    refine ⟨?_, ?_, ?_, ?_⟩
    · cases ai : a.id <;> cases pi : p.id <;> simp [List.findSome?_cons, pi]
    · cases at' : a.type <;> cases pt : p.type <;> simp [List.findSome?_cons, pt]
    · rw [String.append_assoc]
    · rw [String.append_assoc]

/-- A fold of the streaming loop over chunks that carry no tool-call delta
leaves the fragment list untouched. -/
lemma runStream_snd_of_no_calls (chunks : List StreamChunk)
    (acc : String × List ToolCallPart) (h : ∀ ch ∈ chunks, ch.call = none) :
    (chunks.foldl streamStep acc).2 = acc.2 := by
  induction chunks generalizing acc with
  | nil => rfl
  | cons ch rest ih =>
    have hch := h ch (by simp)
    have hrest : ∀ c ∈ rest, c.call = none := fun c hc => h c (by simp [hc])
    rw [List.foldl_cons, ih _ hrest]
    by_cases ht : truthyStr ch.text <;> simp [streamStep, ht, hch]

/-- A fold of the streaming loop over chunks that carry no truthy text
delta leaves the content buffer untouched. -/
lemma runStream_fst_of_no_text (chunks : List StreamChunk)
    (acc : String × List ToolCallPart) (h : ∀ ch ∈ chunks, truthyStr ch.text = false) :
    (chunks.foldl streamStep acc).1 = acc.1 := by
  induction chunks generalizing acc with
  | nil => rfl
  | cons ch rest ih =>
    have hch := h ch (by simp)
    have hrest : ∀ c ∈ rest, truthyStr c.text = false := fun c hc => h c (by simp [hc])
    rw [List.foldl_cons, ih _ hrest]
    cases hc : ch.call <;> simp [streamStep, hch, hc]

/-- The content buffer never shrinks across the streaming loop. -/
lemma runStream_fst_length_mono (chunks : List StreamChunk)
    (acc : String × List ToolCallPart) :
    acc.1.length ≤ (chunks.foldl streamStep acc).1.length := by
  induction chunks generalizing acc with
  | nil => exact Nat.le_refl _
  | cons ch rest ih =>
    rw [List.foldl_cons]
    refine Nat.le_trans ?_ (ih (streamStep acc ch))
    by_cases ht : truthyStr ch.text
    · simp [streamStep, ht, String.length_append]
    · cases hc : ch.call <;> simp [streamStep, ht, hc]

/-- The fragment list never shrinks across the streaming loop. -/
lemma runStream_snd_length_mono (chunks : List StreamChunk)
    (acc : String × List ToolCallPart) :
    acc.2.length ≤ (chunks.foldl streamStep acc).2.length := by
  induction chunks generalizing acc with
  | nil => exact Nat.le_refl _
  | cons ch rest ih =>
    rw [List.foldl_cons]
    refine Nat.le_trans ?_ (ih (streamStep acc ch))
    by_cases ht : truthyStr ch.text
    · simp [streamStep, ht]
    · cases hc : ch.call <;> simp [streamStep, ht, hc]

/-- A non-empty string has positive length. -/
lemma length_pos_of_ne_empty (s : String) (h : s ≠ "") : 0 < s.length := by
  rcases s with ⟨data⟩
  cases data with
  | nil => exact absurd rfl h
  | cons c cs => simp [String.length]

/-- If some chunk carries a truthy text delta, the final content buffer is
non-empty. -/
lemma runStream_fst_ne_of_text (chunks : List StreamChunk)
    (acc : String × List ToolCallPart)
    (h : ∃ ch ∈ chunks, truthyStr ch.text = true) :
    (chunks.foldl streamStep acc).1.length > 0 := by
  induction chunks generalizing acc with
  | nil => simp at h
  | cons ch rest ih =>
    rw [List.foldl_cons]
    rcases h with ⟨c, hc, hct⟩
    rcases List.mem_cons.mp hc with rfl | hmem
    · refine Nat.lt_of_lt_of_le ?_ (runStream_fst_length_mono rest (streamStep acc c))
      have hne : c.text.getD "" ≠ "" := by
        simpa [truthyStr] using hct
      have hpos : 0 < (c.text.getD "").length := length_pos_of_ne_empty _ hne
      simp [streamStep, hct, String.length_append]
      omega
    · exact ih (streamStep acc ch) ⟨c, hmem, hct⟩

/-- If some chunk carries a tool-call delta and no chunk carries truthy
text, the final fragment list is non-empty. -/
lemma runStream_snd_ne_of_call (chunks : List StreamChunk)
    (acc : String × List ToolCallPart)
    (hno : ∀ ch ∈ chunks, truthyStr ch.text = false)
    (h : ∃ ch ∈ chunks, ch.call ≠ none) :
    (chunks.foldl streamStep acc).2.length > 0 := by
  induction chunks generalizing acc with
  | nil => simp at h
  | cons ch rest ih =>
    rw [List.foldl_cons]
    rcases h with ⟨c, hc, hcall⟩
    have hrest : ∀ x ∈ rest, truthyStr x.text = false := fun x hx => hno x (by simp [hx])
    rcases List.mem_cons.mp hc with rfl | hmem
    · refine Nat.lt_of_lt_of_le ?_ (runStream_snd_length_mono rest (streamStep acc c))
      have hct := hno c (by simp)
      cases hcv : c.call with
      | none => exact absurd hcv hcall
      | some p => simp [streamStep, hct, hcv]
    · exact ih (streamStep acc ch) hrest ⟨c, hmem, hcall⟩

/-- Every ok envelope of the tool-calling classification spreads the
composed messages plus the received turn in its respond closure, and
captures the original request options. -/
lemma classifyOpenAI_ok_shape (messages : List Message) (opts : RequestOptions)
    (completion : String) (toolCall : Option ToolCallAcc) (usage : Option Usage)
    (r : ChatResponse) (h : classifyOpenAI messages opts completion toolCall usage = .ok r) :
    r.respondBase = messages ++ [r.message] ∧ r.respondOptions = some opts := by
  unfold classifyOpenAI at h
  by_cases hc : completion ≠ ""
  · rw [if_pos hc] at h
    obtain rfl := Except.ok.inj h
    exact ⟨rfl, rfl⟩
  · rw [if_neg hc] at h
    cases toolCall with
    | some c =>
      obtain rfl := Except.ok.inj h
      exact ⟨rfl, rfl⟩
    | none => exact absurd h (by simp)

/-- Every ok outcome of the OpenAI orchestrator spreads the composed
message list (with the injected system message) plus the received turn,
and captures the original request options. -/
lemma openAIChatCompletion_ok (tokens : List String → Option (List ModelFunction) → Nat)
    (cfg : ModelConfig) (net : OpenAINet) (init : List Message) (opts : RequestOptions)
    (r : ChatResponse)
    (h : (openAIChatCompletion tokens cfg net init opts).result = .ok r) :
    r.respondBase = injectSystemMessage opts.systemMessage init ++ [r.message] ∧
    r.respondOptions = some opts := by
  cases net with
  | streamed chunks =>
    simp only [openAIChatCompletion] at h
    split at h
    · simp at h
    · split at h
      · next resp heq =>
        simp only at h
        obtain rfl := Except.ok.inj h
        exact classifyOpenAI_ok_shape _ _ _ _ _ _ heq
      · simp at h
  | plain c tc u =>
    simp only [openAIChatCompletion] at h
    split at h
    · simp at h
    · split at h
      · next resp heq =>
        simp only at h
        obtain rfl := Except.ok.inj h
        exact classifyOpenAI_ok_shape _ _ _ _ _ _ heq
      · simp at h

/-- Every ok outcome of the Anthropic orchestrator spreads the original,
unprocessed input list plus the received turn, captures the original
request options, and carries the finalized content. -/
lemma anthropicChatCompletion_ok (tokens : List String → Option (List ModelFunction) → Nat)
    (cfg : ModelConfig) (net : AnthropicNet) (init : List Message)
    (aopts : Option RequestOptions) (r : ChatResponse)
    (h : (anthropicChatCompletion tokens cfg net init aopts).result = .ok r) :
    r.respondBase = init ++ [r.message] ∧ r.respondOptions = aopts ∧
    r.content =
      some (anthropicFinalContent (aopts.getD {}).responsePrefix (anthropicAccumulated net)) := by
  simp only [anthropicChatCompletion] at h
  split at h
  · simp at h
  · split at h
    · simp at h
    · simp only at h
      obtain rfl := Except.ok.inj h
      exact ⟨rfl, rfl, rfl⟩

/-- Every ok outcome of the Groq orchestrator spreads the processed
message list plus the received turn, captures the original request
options, and carries the finalized (untrimmed) content. -/
lemma groqChatCompletion_ok (tokens : List String → Option (List ModelFunction) → Nat)
    (cfg : ModelConfig) (net : AnthropicNet) (init : List Message)
    (aopts : Option RequestOptions) (r : ChatResponse)
    (h : (groqChatCompletion tokens cfg net init aopts).result = .ok r) :
    r.respondBase =
      appendPrefill (aopts.getD {}).responsePrefix
        (injectSystemMessage (aopts.getD {}).systemMessage init) ++ [r.message] ∧
    r.respondOptions = aopts ∧
    r.content =
      some (groqFinalContent (aopts.getD {}).responsePrefix (anthropicAccumulated net)) := by
  simp only [groqChatCompletion] at h
  split at h
  · simp at h
  · split at h
    · simp at h
    · simp only at h
      obtain rfl := Except.ok.inj h
      exact ⟨rfl, rfl, rfl⟩

/-- Injecting an absent system message leaves the list unchanged. -/
lemma injectSystemMessage_none (init : List Message) :
    injectSystemMessage none init = init := by
  simp [injectSystemMessage, truthyStr]

/-- Membership is preserved by system message injection. -/
lemma mem_injectSystemMessage (s : Option String) (init : List Message) (m : Message)
    (h : m ∈ init) : m ∈ injectSystemMessage s init := by
  unfold injectSystemMessage
  split
  · exact List.mem_cons_of_mem _ h
  · exact h

/-- A single prompt turn fails exactly on the tool role, with the error
naming that role. -/
lemma bedrockTurn_error_iff (m : Message) (e : String) :
    bedrockTurn m = .error e ↔
      m.role = Role.tool ∧
        e = "Anthropic models do not support message with the role " ++
          Role.name Role.tool := by
  rcases m with ⟨role, content, tc, tid⟩
  cases role <;> simp [bedrockTurn, eq_comm]

/-- The turn map fails exactly when some message has the tool role. -/
lemma bedrockTurns_error_iff (msgs : List Message) :
    (∃ e, bedrockTurns msgs = .error e) ↔ ∃ m ∈ msgs, m.role = Role.tool := by
  induction msgs with
  | nil => simp [bedrockTurns]
  | cons m rest ih =>
    constructor
    · rintro ⟨e, he⟩
      unfold bedrockTurns at he
      cases hm : bedrockTurn m with
      | error e2 => exact ⟨m, by simp, ((bedrockTurn_error_iff m e2).mp hm).1⟩
      | ok s =>
        rw [hm] at he
        cases hr : bedrockTurns rest with
        | error e3 =>
          obtain ⟨m2, hm2, hrole⟩ := ih.mp ⟨e3, hr⟩
          exact ⟨m2, by simp [hm2], hrole⟩
        | ok ss =>
          rw [hr] at he
          simp at he
    · rintro ⟨m2, hm2, hrole⟩
      rcases List.mem_cons.mp hm2 with rfl | hmem
      · have hm : bedrockTurn m2 =
            .error ("Anthropic models do not support message with the role " ++
              Role.name Role.tool) :=
          (bedrockTurn_error_iff m2 _).mpr ⟨hrole, rfl⟩
        refine ⟨"Anthropic models do not support message with the role " ++
          Role.name Role.tool, ?_⟩
        unfold bedrockTurns
        rw [hm]
      · obtain ⟨e, he⟩ := ih.mpr ⟨m2, hmem, hrole⟩
        cases hm : bedrockTurn m with
        | error e2 =>
          refine ⟨e2, ?_⟩
          unfold bedrockTurns
          rw [hm]
        | ok s =>
          refine ⟨e, ?_⟩
          unfold bedrockTurns
          rw [hm, he]

/-- Every error of the turn map carries the message naming the tool
role. -/
lemma bedrockTurns_error_value (msgs : List Message) (e : String)
    (h : bedrockTurns msgs = .error e) :
    e = "Anthropic models do not support message with the role " ++ Role.name Role.tool := by
  induction msgs generalizing e with
  | nil => simp [bedrockTurns] at h
  | cons m rest ih =>
    unfold bedrockTurns at h
    cases hm : bedrockTurn m with
    | error e2 =>
      rw [hm] at h
      obtain rfl := Except.error.inj h
      exact ((bedrockTurn_error_iff m _).mp hm).2
    | ok s =>
      rw [hm] at h
      cases hr : bedrockTurns rest with
      | error e3 =>
        rw [hr] at h
        obtain rfl := Except.error.inj h
        exact ih _ hr
      | ok ss =>
        rw [hr] at h
        simp at h

/-- The prompt builder fails exactly when some message has the tool
role. -/
lemma bedrockPrompt_error_iff (msgs : List Message) (rp : Option String) :
    (∃ e, bedrockPrompt msgs rp = .error e) ↔ ∃ m ∈ msgs, m.role = Role.tool := by
  constructor
  · rintro ⟨e, he⟩
    unfold bedrockPrompt at he
    cases h : bedrockTurns msgs with
    | error e2 => exact (bedrockTurns_error_iff msgs).mp ⟨e2, h⟩
    | ok turns =>
      rw [h] at he
      simp at he
  · intro htool
    obtain ⟨e, he⟩ := (bedrockTurns_error_iff msgs).mpr htool
    refine ⟨e, ?_⟩
    unfold bedrockPrompt
    rw [he]

/-- Every error of the prompt builder carries the message naming the tool
role. -/
lemma bedrockPrompt_error_value (msgs : List Message) (rp : Option String) (e : String)
    (h : bedrockPrompt msgs rp = .error e) :
    e = "Anthropic models do not support message with the role " ++ Role.name Role.tool := by
  unfold bedrockPrompt at h
  cases hm : bedrockTurns msgs with
  | error e2 =>
    rw [hm] at h
    obtain rfl := Except.error.inj h
    exact bedrockTurns_error_value msgs _ hm
  | ok turns =>
    rw [hm] at h
    simp at h

/-- An attempt outcome the retry controller classifies as retryable:
HTTP 429 or a 5xx status, or a transport exception with one of the
retryable codes. -/
def RetryableAttempt (a : AttemptResult) : Prop :=
  match a with
  | .http status _ => status = 429 ∨ 500 ≤ status
  | .exn code => retryableCode code = true

instance (a : AttemptResult) : Decidable (RetryableAttempt a) := by
  unfold RetryableAttempt
  cases a <;> infer_instance

/-- The event trace of a chain of k retried attempts starting at retry
interval i, ending with the final request. -/
def backoffTrace : Nat → Nat → List EdgeEvent
  | 0, _ => [.request]
  | k + 1, i => .request :: .sleep i :: backoffTrace k (i * 2)

/-- The sleeps of a trace, in order. -/
def sleepsOf (trace : List EdgeEvent) : List Nat :=
  trace.filterMap fun e =>
    match e with
    | .sleep ms => some ms
    | .request => none

/-- The j-th sleep of a backoff trace (counting from zero) lasts
`i * 2 ^ j`: the delay before the i-th retry is the initial interval
doubled i-1 times. -/
lemma sleepsOf_backoffTrace (k : Nat) (i : Nat) :
    sleepsOf (backoffTrace k i) = (List.range k).map (fun j => i * 2 ^ j) := by
  induction k generalizing i with
  | zero => simp [backoffTrace, sleepsOf]
  | succ k ih =>
    rw [backoffTrace, List.range_succ_eq_map]
    simp only [sleepsOf, List.filterMap_cons] at ih ⊢
    rw [ih (i * 2)]
    simp only [List.map_cons, List.map_map, pow_zero, Nat.mul_one]
    refine congrArg (i :: ·) (List.map_congr_left fun j hj => ?_)
    simp only [Function.comp, pow_succ]
    ring

/-! # Claim theorems -/

/-- C6: a list of streamed tool-call fragments that splits one call `c`
(all name fields concatenated in arrival order, all arguments fields
concatenated in arrival order, the first id and type kept) is reduced by
the stream aggregation to exactly the in-flight form of `c`: byte-identical
to the tool call of the equivalent non-streamed response. -/
theorem toolcall_split_reconstruction (parts : List ToolCallPart) (c : ToolCall)
    (h : IsSplitOf parts c) :
    aggregateToolCallParts parts = accOfToolCall c := by
  obtain ⟨h1, h2, h3, h4⟩ := h
  unfold aggregateToolCallParts accOfToolCall
  rw [foldl_toolCallReduceStep]
  simp [h1, h2, h3, h4]

/-- Witness for C6: a concrete call split into two fragments, with the id
and type on the first fragment only, reconstructs exactly. -/
theorem toolcall_split_reconstruction_witness :
    IsSplitOf
      [⟨some "call_1", some "function", some "get_", some "abc"⟩,
       ⟨none, none, some "weather", some "def"⟩]
      ⟨"call_1", "function", ⟨"get_weather", "abcdef"⟩⟩ ∧
    aggregateToolCallParts
      [⟨some "call_1", some "function", some "get_", some "abc"⟩,
       ⟨none, none, some "weather", some "def"⟩] =
      accOfToolCall ⟨"call_1", "function", ⟨"get_weather", "abcdef"⟩⟩ :=
  ⟨by decide, toolcall_split_reconstruction _ _ (by decide)⟩

/-- C7 counterexample: the streaming loop applied to a stream holding one
truthy text chunk followed by one tool-call chunk ends with both
accumulators non-empty, so it is not the case that exactly one of the two
accumulators ends non-empty for every streamed response. -/
theorem stream_overlap_counterexample :
    ¬(((runStream [⟨some "a", none⟩, ⟨none, some ⟨some "i", none, none, none⟩⟩]).1 ≠ "" ∧
       (runStream [⟨some "a", none⟩, ⟨none, some ⟨some "i", none, none, none⟩⟩]).2 = []) ∨
      ((runStream [⟨some "a", none⟩, ⟨none, some ⟨some "i", none, none, none⟩⟩]).1 = "" ∧
       (runStream [⟨some "a", none⟩, ⟨none, some ⟨some "i", none, none, none⟩⟩]).2 ≠ [])) := by
  decide

/-- C7 (amended): each streamed chunk feeds at most one of the two
accumulators (text taking precedence within a chunk), so a stream whose
chunks are all of one kind ends with at most one accumulator non-empty,
and with exactly one when some chunk carries content; a stream mixing
text and tool-call chunks can end with both non-empty, and an empty
stream ends with neither. -/
theorem stream_accumulators_single_kind (chunks : List StreamChunk) :
    (∀ acc ch, (streamStep acc ch).1 = acc.1 ∨ (streamStep acc ch).2 = acc.2) ∧
    ((∀ ch ∈ chunks, ch.call = none) → (runStream chunks).2 = []) ∧
    ((∀ ch ∈ chunks, truthyStr ch.text = false) → (runStream chunks).1 = "") ∧
    ((∀ ch ∈ chunks, ch.call = none) → (∃ ch ∈ chunks, truthyStr ch.text = true) →
      (runStream chunks).1 ≠ "" ∧ (runStream chunks).2 = []) ∧
    ((∀ ch ∈ chunks, truthyStr ch.text = false) → (∃ ch ∈ chunks, ch.call ≠ none) →
      (runStream chunks).1 = "" ∧ (runStream chunks).2 ≠ []) := by
  refine ⟨?_, ?_, ?_, ?_, ?_⟩
  · intro acc ch
    by_cases ht : truthyStr ch.text
    · right
      simp [streamStep, ht]
    · left
      cases hc : ch.call <;> simp [streamStep, ht, hc]
  · intro h
    exact runStream_snd_of_no_calls chunks _ h
  · intro h
    exact runStream_fst_of_no_text chunks _ h
  · intro hcall htext
    refine ⟨?_, runStream_snd_of_no_calls chunks _ hcall⟩
    have hpos : (runStream chunks).1.length > 0 :=
      runStream_fst_ne_of_text chunks ("", []) htext
    intro hempty
    rw [hempty] at hpos
    simp at hpos
  · intro htext hcall
    refine ⟨runStream_fst_of_no_text chunks _ htext, ?_⟩
    have hpos : (runStream chunks).2.length > 0 :=
      runStream_snd_ne_of_call chunks ("", []) htext hcall
    intro hempty
    rw [hempty] at hpos
    simp at hpos

/-- Witness for C7 (amended) at a concrete pure-text stream. -/
theorem stream_accumulators_single_kind_witness :
    (runStream [⟨some "a", none⟩, ⟨some "b", none⟩]).1 ≠ "" ∧
    (runStream [⟨some "a", none⟩, ⟨some "b", none⟩]).2 = [] :=
  (stream_accumulators_single_kind [⟨some "a", none⟩, ⟨some "b", none⟩]).2.2.2.1
    (by decide) ⟨⟨some "a", none⟩, by decide, by decide⟩

/-- C1: in both the OpenAI and the Anthropic orchestrator, with budget
`contextSize - minimumResponseTokens` when contextSize is configured and
100000 otherwise, and estimate the token estimator applied to the composed
message texts (plus function specs in the OpenAI variant), the call fails
with a TokenError carrying overflow `estimate - budget` exactly when
`estimate > budget`, and that failure is raised with zero network requests
issued; otherwise exactly one request is issued and no TokenError occurs. -/
theorem token_guard_preflight (tokens : List String → Option (List ModelFunction) → Nat)
    (cfg : ModelConfig) (netO : OpenAINet) (netA : AnthropicNet)
    (init : List Message) (opts : RequestOptions) (aopts : Option RequestOptions)
    (estO budgetO estA budgetA : Int)
    (hestO : estO =
      tokens ((injectSystemMessage opts.systemMessage init).map messageText) opts.functions)
    (hbudgetO : budgetO =
      maxPromptTokens cfg.contextSize (opts.minimumResponseTokens.getD MinimumResponseTokens))
    (hestA : estA =
      tokens ((appendPrefill (aopts.getD {}).responsePrefix init).map messageText) none)
    (hbudgetA : budgetA =
      maxPromptTokens cfg.contextSize
        ((aopts.getD {}).minimumResponseTokens.getD MinimumResponseTokens)) :
    ((estO > budgetO →
        (openAIChatCompletion tokens cfg netO init opts).result =
          .error (.tokenError
            ⟨"Prompt too big, not enough tokens to meet minimum response", estO - budgetO⟩) ∧
        (openAIChatCompletion tokens cfg netO init opts).requests = 0) ∧
      (estO ≤ budgetO →
        (openAIChatCompletion tokens cfg netO init opts).requests = 1 ∧
        ∀ e, (openAIChatCompletion tokens cfg netO init opts).result ≠
          .error (.tokenError e))) ∧
    ((estA > budgetA →
        (anthropicChatCompletion tokens cfg netA init aopts).result =
          .error (.tokenError
            ⟨"Prompt too big, not enough tokens to meet minimum response", estA - budgetA⟩) ∧
        (anthropicChatCompletion tokens cfg netA init aopts).requests = 0) ∧
      (estA ≤ budgetA →
        (anthropicChatCompletion tokens cfg netA init aopts).requests = 1 ∧
        ∀ e, (anthropicChatCompletion tokens cfg netA init aopts).result ≠
          .error (.tokenError e))) := by
  subst hestO
  subst hbudgetO
  subst hestA
  subst hbudgetA
  constructor
  · constructor
    · intro hgt
      simp only [openAIChatCompletion]
      rw [if_pos hgt]
      exact ⟨rfl, rfl⟩
    · intro hle
      have hnot := not_lt.mpr hle
      constructor
      · simp only [openAIChatCompletion]
        rw [if_neg hnot]
        split <;> rfl
      · intro e
        simp only [openAIChatCompletion]
        rw [if_neg hnot]
        split <;> simp
  · constructor
    · intro hgt
      simp only [anthropicChatCompletion]
      rw [if_pos hgt]
      exact ⟨rfl, rfl⟩
    · intro hle
      have hnot := not_lt.mpr hle
      constructor
      · simp only [anthropicChatCompletion]
        rw [if_neg hnot]
        split <;> rfl
      · intro e
        simp only [anthropicChatCompletion]
        rw [if_neg hnot]
        split <;> simp

/-- Witness for C1: context size 300 with default minimum response 200
gives budget 100; an estimate of 500 overflows by 400 and issues no
request. -/
theorem token_guard_preflight_witness :
    (openAIChatCompletion (fun _ _ => 500) { contextSize := some 300 }
        (.plain (some "x") [] none) [] {}).result =
      .error (.tokenError
        ⟨"Prompt too big, not enough tokens to meet minimum response", (500 : Int) - 100⟩) ∧
    (openAIChatCompletion (fun _ _ => 500) { contextSize := some 300 }
        (.plain (some "x") [] none) [] {}).requests = 0 :=
  (token_guard_preflight (fun _ _ => 500) { contextSize := some 300 }
      (.plain (some "x") [] none) (.plain "x") [] {} none
      500 100 500 100 rfl (by decide) rfl (by decide)).1.1 (by decide)

/-- C2 counterexample: in the OpenAI variant with a systemMessage option
set, the history respond would hand to the next call is the provider
composed list (with the injected system message) plus the assistant turn
and the wrapped message, not the original unprocessed input list plus
those two turns. -/
theorem respond_history_counterexample :
    (openAIChatCompletion (fun _ _ => 0) {} (.plain (some "ok") [] none)
        [⟨Role.user, some "q", none, none⟩] { systemMessage := some "sys" }).result.map
        (fun r => respondHistory r (Sum.inl "hi")) =
      .ok [⟨Role.system, some "sys", none, none⟩, ⟨Role.user, some "q", none, none⟩,
           ⟨Role.assistant, some "ok", none, none⟩, ⟨Role.user, some "hi", none, none⟩] ∧
    (openAIChatCompletion (fun _ _ => 0) {} (.plain (some "ok") [] none)
        [⟨Role.user, some "q", none, none⟩] { systemMessage := some "sys" }).result.map
        (fun r => respondHistory r (Sum.inl "hi")) ≠
      .ok ([⟨Role.user, some "q", none, none⟩] ++
           [⟨Role.assistant, some "ok", none, none⟩, ⟨Role.user, some "hi", none, none⟩]) := by
  decide

/-- C2 (amended): `respond(msg)` with no override re-invokes chatCompletion
on the message list captured by the producing call followed by the received
assistant turn and the wrapped message, and reuses the original
RequestOptions. In the Anthropic variant the captured list is always the
original, unprocessed input list (no prefill artifact); in the OpenAI
variant it is the composed list, which equals the original input list
exactly when no truthy systemMessage option was supplied. -/
theorem respond_history_amended (tokens : List String → Option (List ModelFunction) → Nat)
    (cfg : ModelConfig) (netO : OpenAINet) (netA : AnthropicNet)
    (init : List Message) (opts : RequestOptions) (aopts : Option RequestOptions)
    (f : String ⊕ Message) (rO rA : ChatResponse)
    (hO : (openAIChatCompletion tokens cfg netO init opts).result = .ok rO)
    (hA : (anthropicChatCompletion tokens cfg netA init aopts).result = .ok rA) :
    respondHistory rO f =
      injectSystemMessage opts.systemMessage init ++
        [rO.message, wrapFollowup rO.wrapRule f] ∧
    (truthyStr opts.systemMessage = false →
      respondHistory rO f = init ++ [rO.message, wrapFollowup rO.wrapRule f]) ∧
    respondOptionsUsed rO none = some opts ∧
    respondHistory rA f = init ++ [rA.message, wrapFollowup rA.wrapRule f] ∧
    respondOptionsUsed rA none = aopts := by
  obtain ⟨hbase, hopts⟩ := openAIChatCompletion_ok tokens cfg netO init opts rO hO
  obtain ⟨habase, haopts, -⟩ := anthropicChatCompletion_ok tokens cfg netA init aopts rA hA
  refine ⟨?_, ?_, ?_, ?_, ?_⟩
  · rw [respondHistory, hbase]
    simp
  · intro hsys
    rw [respondHistory, hbase]
    simp [injectSystemMessage, hsys]
  · simp [respondOptionsUsed, hopts]
  · rw [respondHistory, habase]
    simp
  · simp [respondOptionsUsed, haopts]

/-- Witness for C2 (amended) at a concrete exchange with no system
message. -/
theorem respond_history_amended_witness :
    respondHistory
        { message := ⟨Role.assistant, some "ok", none, none⟩
          content := some "ok"
          respondBase := [⟨Role.assistant, some "ok", none, none⟩]
          wrapRule := .asUser
          respondOptions := some {} }
        (Sum.inl "hi") =
      injectSystemMessage none [] ++
        [⟨Role.assistant, some "ok", none, none⟩,
         wrapFollowup WrapRule.asUser (Sum.inl "hi")] :=
  (respond_history_amended (fun _ _ => 0) {} (.plain (some "ok") [] none) (.plain "ok")
      [] {} none (Sum.inl "hi")
      { message := ⟨Role.assistant, some "ok", none, none⟩
        content := some "ok"
        respondBase := [⟨Role.assistant, some "ok", none, none⟩]
        wrapRule := .asUser
        respondOptions := some {} }
      { message := ⟨Role.assistant, some "ok", none, none⟩
        content := some "ok"
        respondBase := [⟨Role.assistant, some "ok", none, none⟩]
        wrapRule := .asUser
        respondOptions := none }
      (by decide) (by decide)).1

/-- C9 counterexample: the Groq variant is prefill-capable, yet with no
responsePrefix supplied it finalizes the accumulated completion " hi "
unchanged instead of trimming it to "hi". -/
theorem finalize_trim_counterexample :
    (groqChatCompletion (fun _ _ => 1) {} (.plain " hi ") [] none).result.map (·.content) =
      .ok (some " hi ") ∧
    jsTrim " hi " = "hi" ∧
    some " hi " ≠ some ("hi" : String) := by
  decide

/-- C9 (amended): when a responsePrefix is supplied, both prefill-capable
variants finalize content as the prefix concatenated verbatim (untrimmed)
with the accumulated completion; when none is supplied, the Anthropic
variant trims the accumulated completion while the Groq variant returns it
unchanged. -/
theorem finalize_content_amended (tokens : List String → Option (List ModelFunction) → Nat)
    (cfg : ModelConfig) (net : AnthropicNet) (init : List Message)
    (aopts : Option RequestOptions) (rA rG : ChatResponse)
    (hA : (anthropicChatCompletion tokens cfg net init aopts).result = .ok rA)
    (hG : (groqChatCompletion tokens cfg net init aopts).result = .ok rG) :
    (truthyStr (aopts.getD {}).responsePrefix = true →
      rA.content =
        some ((aopts.getD {}).responsePrefix.getD "" ++ anthropicAccumulated net) ∧
      rG.content =
        some ((aopts.getD {}).responsePrefix.getD "" ++ anthropicAccumulated net)) ∧
    (truthyStr (aopts.getD {}).responsePrefix = false →
      rA.content = some (jsTrim (anthropicAccumulated net)) ∧
      rG.content = some (anthropicAccumulated net)) := by
  obtain ⟨-, -, hac⟩ := anthropicChatCompletion_ok tokens cfg net init aopts rA hA
  obtain ⟨-, -, hgc⟩ := groqChatCompletion_ok tokens cfg net init aopts rG hG
  constructor <;> intro hp
  · rw [hac, hgc]
    unfold anthropicFinalContent groqFinalContent
    rw [if_pos hp, if_pos hp]
    exact ⟨rfl, rfl⟩
  · rw [hac, hgc]
    unfold anthropicFinalContent groqFinalContent
    rw [if_neg (by simp [hp]), if_neg (by simp [hp])]
    exact ⟨rfl, rfl⟩

/-- Witness for C9 (amended) at a concrete prefixed completion. -/
theorem finalize_content_amended_witness :
    ({ message := ⟨Role.assistant, some "p: done", none, none⟩
       content := some "p: done"
       respondBase := [⟨Role.assistant, some "p: done", none, none⟩]
       wrapRule := WrapRule.asUser
       respondOptions := some { responsePrefix := some "p: " } } : ChatResponse).content =
      some ("p: " ++ anthropicAccumulated (.plain "done")) ∧
    ({ message := ⟨Role.assistant, some "p: done", none, none⟩
       content := some "p: done"
       respondBase := [⟨Role.assistant, some "p: ", none, none⟩,
                       ⟨Role.assistant, some "p: done", none, none⟩]
       wrapRule := WrapRule.asUser
       respondOptions := some { responsePrefix := some "p: " } } : ChatResponse).content =
      some ("p: " ++ anthropicAccumulated (.plain "done")) :=
  (finalize_content_amended (fun _ _ => 1) {} (.plain "done") []
      (some { responsePrefix := some "p: " })
      { message := ⟨Role.assistant, some "p: done", none, none⟩
        content := some "p: done"
        respondBase := [⟨Role.assistant, some "p: done", none, none⟩]
        wrapRule := WrapRule.asUser
        respondOptions := some { responsePrefix := some "p: " } }
      { message := ⟨Role.assistant, some "p: done", none, none⟩
        content := some "p: done"
        respondBase := [⟨Role.assistant, some "p: ", none, none⟩,
                        ⟨Role.assistant, some "p: done", none, none⟩]
        wrapRule := WrapRule.asUser
        respondOptions := some { responsePrefix := some "p: " } }
      (by decide) (by decide)).1 (by decide)

/-- C5: every finalized provider outcome is classified into exactly one
envelope kind, in both the tool-calling and the legacy function-calling
variant: a non-empty finalized text yields a text envelope (content set,
assistant role, no call fields) even when a call is also present; an empty
text with a present call yields a call envelope (name and raw arguments
set - the source exposes the lenient parse of the raw arguments - and no
content); otherwise the call fails with `Completion response malformed`. -/
theorem classification_trichotomy (messages : List Message) (opts : RequestOptions)
    (completion : String) (toolCall : Option ToolCallAcc)
    (functionCall : Option ToolCallFunction) (usage : Option Usage) :
    (completion ≠ "" →
      ∃ r, classifyOpenAI messages opts completion toolCall usage = .ok r ∧
        r.content = some completion ∧ r.message.role = Role.assistant ∧
        r.name = none ∧ r.argumentsRaw = none) ∧
    (completion = "" → ∀ c, toolCall = some c →
      ∃ r, classifyOpenAI messages opts completion toolCall usage = .ok r ∧
        r.name = some c.name ∧ r.argumentsRaw = some c.arguments ∧
        r.toolCallId = c.id ∧ r.content = none) ∧
    (completion = "" → toolCall = none →
      classifyOpenAI messages opts completion toolCall usage =
        .error "Completion response malformed") ∧
    (completion ≠ "" →
      ∃ r, classifyOpenAILegacy messages opts completion functionCall usage = .ok r ∧
        r.content = some completion ∧ r.message.role = Role.assistant ∧
        r.name = none ∧ r.argumentsRaw = none) ∧
    (completion = "" → ∀ fc, functionCall = some fc →
      ∃ r, classifyOpenAILegacy messages opts completion functionCall usage = .ok r ∧
        r.name = some fc.name ∧ r.argumentsRaw = some fc.arguments ∧ r.content = none) ∧
    (completion = "" → functionCall = none →
      classifyOpenAILegacy messages opts completion functionCall usage =
        .error "Completion response malformed") := by
  refine ⟨?_, ?_, ?_, ?_, ?_, ?_⟩
  · intro h
    refine ⟨{ message := ⟨Role.assistant, some completion, none, none⟩
              content := some completion
              usage := usage
              respondBase := messages ++ [⟨Role.assistant, some completion, none, none⟩]
              wrapRule := .asUser
              respondOptions := some opts }, ?_, rfl, rfl, rfl, rfl⟩
    simp [classifyOpenAI, h]
  · intro h c hc
    subst h
    subst hc
    refine ⟨{ message := ⟨Role.assistant, some "", some c, none⟩
              toolCallId := c.id
              name := some c.name
              argumentsRaw := some c.arguments
              usage := usage
              respondBase := messages ++ [⟨Role.assistant, some "", some c, none⟩]
              wrapRule := .asTool c.id
              respondOptions := some opts }, ?_, rfl, rfl, rfl, rfl⟩
    simp [classifyOpenAI]
  · intro h hc
    subst h
    subst hc
    simp [classifyOpenAI]
  · intro h
    refine ⟨{ message := ⟨Role.assistant, some completion, none, none⟩
              content := some completion
              usage := usage
              respondBase := messages ++ [⟨Role.assistant, some completion, none, none⟩]
              wrapRule := .asUser
              respondOptions := some opts }, ?_, rfl, rfl, rfl, rfl⟩
    simp [classifyOpenAILegacy, h]
  · intro h fc hfc
    subst h
    subst hfc
    refine ⟨{ message :=
                ⟨Role.assistant, some "", some ⟨some "1", some "function", fc.name, fc.arguments⟩, none⟩
              name := some fc.name
              argumentsRaw := some fc.arguments
              usage := usage
              respondBase := messages ++
                [⟨Role.assistant, some "", some ⟨some "1", some "function", fc.name, fc.arguments⟩, none⟩]
              wrapRule := .asUser
              respondOptions := some opts }, ?_, rfl, rfl, rfl⟩
    simp [classifyOpenAILegacy]
  · intro h hfc
    subst h
    subst hfc
    simp [classifyOpenAILegacy]

/-- Witness for C5 at a concrete tool-call outcome with empty text. -/
theorem classification_trichotomy_witness :
    ∃ r, classifyOpenAI [] {} "" (some ⟨some "c9", some "function", "fn", "args"⟩) none =
        .ok r ∧
      r.name = some "fn" ∧ r.argumentsRaw = some "args" ∧
      r.toolCallId = some "c9" ∧ r.content = none :=
  (classification_trichotomy [] {} ""
      (some ⟨some "c9", some "function", "fn", "args"⟩) none none).2.1 rfl
    ⟨some "c9", some "function", "fn", "args"⟩ rfl

/-- C10: in the OpenAI tool-calling variant, when both contextSize and
maximumResponseTokens are set (truthy) the max_tokens sent equals
`min(contextSize - (contextSize - minimumResponseTokens), maximumResponseTokens)
= min(minimumResponseTokens, maximumResponseTokens)`; when contextSize is
unset no max_tokens value is sent at all. -/
theorem openai_max_tokens (contextSize : Option Nat) (minResp : Nat)
    (maxResp : Option Nat) :
    (truthyNat contextSize = true → truthyNat maxResp = true →
      openAIMaxTokens contextSize minResp maxResp =
        some (min (minResp : Int) ((maxResp.getD 0 : Nat) : Int))) ∧
    (truthyNat contextSize = false →
      openAIMaxTokens contextSize minResp maxResp = none) := by
  constructor
  · intro hcs hmr
    unfold openAIMaxTokens maxPromptTokens
    simp only [hcs, hmr, Bool.and_self, if_true, if_pos]
    congr 1
    have : (contextSize.getD 0 : Int) - ((contextSize.getD 0 : Int) - (minResp : Int)) =
        (minResp : Int) := by ring
    rw [this]
  · intro hcs
    unfold openAIMaxTokens
    simp [hcs]

/-- Witness for C10: contextSize 4096 with minimum 200 and maximum 1000
sends max_tokens 200; no contextSize sends none. -/
theorem openai_max_tokens_witness :
    openAIMaxTokens (some 4096) 200 (some 1000) = some (min (200 : Int) (1000 : Int)) ∧
    openAIMaxTokens none 200 (some 1000) = none :=
  ⟨(openai_max_tokens (some 4096) 200 (some 1000)).1 (by decide) (by decide),
   (openai_max_tokens none 200 (some 1000)).2 (by decide)⟩

/-- C3: for every chain of k retryable failures (k at most the configured
retry count) followed by a successful attempt, the edge orchestrator sleeps
the current interval before each retry and re-invokes itself with retries
decremented and the interval doubled, so its event trace is the backoff
trace whose j-th sleep (counting retries from 1) lasts
`initialInterval * 2 ^ (j-1)`, and the overall call succeeds with the
content of the (k+1)-th attempt. -/
theorem retry_backoff_success (tokens : List String → Option (List ModelFunction) → Nat)
    (cfg : ModelConfig) (failures : List AttemptResult) (body : EdgeBody)
    (rest : List AttemptResult) (init : List Message) (opts : RequestOptions)
    (r : Int) (i : Nat) (fuel : Nat)
    (hr : opts.retries = some r)
    (hi : opts.retryInterval = some i)
    (hsys : opts.systemMessage = none)
    (htok : ((tokens (init.map messageText) opts.functions : Int) ≤
      maxPromptTokens cfg.contextSize (opts.minimumResponseTokens.getD MinimumResponseTokens)))
    (hfail : ∀ a ∈ failures, RetryableAttempt a)
    (hk : (failures.length : Int) ≤ r)
    (hfuel : failures.length < fuel)
    (hbody : body.error = false)
    (hcontent : truthyStr body.content = true) :
    (edgeChatCompletion tokens cfg fuel (failures ++ .http 200 body :: rest) init opts).1 =
      backoffTrace failures.length i ∧
    (∃ resp,
      (edgeChatCompletion tokens cfg fuel (failures ++ .http 200 body :: rest) init opts).2 =
        some (.ok resp) ∧ resp.content = some (body.content.getD "")) ∧
    sleepsOf (backoffTrace failures.length i) =
      (List.range failures.length).map (fun j => i * 2 ^ j) := by
  suffices h :
      (edgeChatCompletion tokens cfg fuel (failures ++ .http 200 body :: rest) init opts).1 =
        backoffTrace failures.length i ∧
      (∃ resp,
        (edgeChatCompletion tokens cfg fuel (failures ++ .http 200 body :: rest) init opts).2 =
          some (.ok resp) ∧ resp.content = some (body.content.getD "")) by
    exact ⟨h.1, h.2, sleepsOf_backoffTrace _ _⟩
  induction failures generalizing opts r i fuel with
  | nil =>
    cases fuel with
    | zero => exact absurd hfuel (by simp)
    | succ f =>
      simp only [edgeChatCompletion, List.nil_append, hsys, injectSystemMessage_none]
      rw [if_neg (not_lt.mpr htok)]
      rw [if_neg (by decide), if_neg (by decide), if_neg (by simp [hbody])]
      refine ⟨rfl, ?_⟩
      unfold classifyEdge
      rw [if_pos hcontent]
      exact ⟨_, rfl, rfl⟩
  | cons a fs ih =>
    cases fuel with
    | zero => exact absurd hfuel (by simp)
    | succ f =>
      have hfa := hfail a (by simp)
      have hfs : ∀ x ∈ fs, RetryableAttempt x := fun x hx => hfail x (by simp [hx])
      have hklen : ((fs.length : Int)) ≤ r - 1 := by
        simp only [List.length_cons] at hk
        push_cast at hk ⊢
        omega
      have hflen : fs.length < f := Nat.lt_of_succ_lt_succ (by simpa using hfuel)
      obtain ⟨ht, hres⟩ :=
        ih { opts with retries := some (r - 1), retryInterval := some (i * 2) }
          (r - 1) (i * 2) f rfl rfl hsys htok hfs hklen hflen
      simp only [hsys] at ht hres
      cases a with
      | http status body' =>
        have hret : status = 429 ∨ 500 ≤ status := hfa
        have h401 : ¬(status = 401) := by
          rintro rfl
          rcases hret with h | h <;> omega
        simp only [edgeChatCompletion, List.cons_append, hsys, injectSystemMessage_none,
          hr, hi, Option.getD_some]
        rw [if_neg (not_lt.mpr htok)]
        rw [if_neg h401, if_pos hret]
        constructor
        · simp only [List.length_cons, backoffTrace]
          rw [ht]
        · exact hres
      | exn code =>
        have hcode : retryableCode code = true := hfa
        have hr0 : ¬(r = 0) := by
          simp only [List.length_cons] at hk
          push_cast at hk
          omega
        simp only [edgeChatCompletion, List.cons_append, hsys, injectSystemMessage_none,
          hr, hi, Option.getD_some]
        rw [if_neg (not_lt.mpr htok)]
        rw [if_neg hr0, if_pos hcode]
        constructor
        · simp only [List.length_cons, backoffTrace]
          rw [ht]
        · exact hres

/-- Witness for C3: two retryable failures (one rate limit, one timeout)
with three configured retries and initial interval 10 produce the trace
request, sleep 10, request, sleep 20, request, and the call succeeds with
the third attempt. -/
theorem retry_backoff_success_witness :
    (edgeChatCompletion (fun _ _ => 1) {} 5
        ([.http 429 {}, .exn (some "ETIMEDOUT")] ++
          .http 200 { content := some "done" } :: []) []
        { retries := some 3, retryInterval := some 10 }).1 =
      backoffTrace 2 10 ∧
    (∃ resp,
      (edgeChatCompletion (fun _ _ => 1) {} 5
          ([.http 429 {}, .exn (some "ETIMEDOUT")] ++
            .http 200 { content := some "done" } :: []) []
          { retries := some 3, retryInterval := some 10 }).2 =
        some (.ok resp) ∧
      resp.content = some (({ content := some "done" } : EdgeBody).content.getD "")) ∧
    sleepsOf (backoffTrace 2 10) = (List.range 2).map (fun j => 10 * 2 ^ j) :=
  retry_backoff_success (fun _ _ => 1) {} [.http 429 {}, .exn (some "ETIMEDOUT")]
    { content := some "done" } [] []
    { retries := some 3, retryInterval := some 10 } 3 10 5
    rfl rfl rfl (by decide) (by decide) (by decide) (by decide) (by decide) (by decide)

/-- C4: the catch block honors an exhausted retry count for transport
failures - with zero retries left an ETIMEDOUT failure is re-raised
unchanged (same code) after exactly one request and no sleep - but the
HTTP 429/5xx branch consults no retry count at all: with zero retries
left a 429 response still triggers a sleep and a second network request
(here succeeding), contradicting the re-raise-with-no-further-attempt
behavior the claim and the surrounding code (the catch block, and the
"attempts left: 0" it logs) describe. -/
theorem retry_exhaustion_429_bug :
    edgeChatCompletion (fun _ _ => 1) {} 3 [.exn (some "ETIMEDOUT")] []
        { retries := some 0, retryInterval := some 7 } =
      ([.request], some (.error (.transport (some "ETIMEDOUT")))) ∧
    (edgeChatCompletion (fun _ _ => 1) {} 3
        [.http 429 {}, .http 200 { content := some "ok" }] []
        { retries := some 0, retryInterval := some 7 }).1 =
      [.request, .sleep 7, .request] ∧
    (edgeChatCompletion (fun _ _ => 1) {} 3 [.http 401 {}] []
        { retries := some 5, retryInterval := some 7 }) =
      ([.request], some (.error .authorization)) := by
  decide

/-- C8: the Bedrock prompt builder fails exactly when some message carries
a role outside the supported set (user, assistant, system all have mapping
rules; only the tool role has none), its error names that unsupported
role, and the full call then fails with the role error having issued zero
network requests. -/
theorem unsupported_role_protocol_error
    (tokens : List String → Option (List ModelFunction) → Nat) (cfg : ModelConfig)
    (netBody : String) (msgs init : List Message) (rp : Option String)
    (aopts : Option RequestOptions) :
    ((∃ e, bedrockPrompt msgs rp = .error e) ↔ ∃ m ∈ msgs, m.role = Role.tool) ∧
    (∀ e, bedrockPrompt msgs rp = .error e →
      e = "Anthropic models do not support message with the role " ++
        Role.name Role.tool) ∧
    ((∃ m ∈ init, m.role = Role.tool) →
      (bedrockChatCompletion tokens cfg netBody init aopts).requests = 0 ∧
      ∃ e, (bedrockChatCompletion tokens cfg netBody init aopts).result =
        .error (.roleError e)) := by
  refine ⟨bedrockPrompt_error_iff msgs rp, fun e he => bedrockPrompt_error_value msgs rp e he, ?_⟩
  rintro ⟨m, hm, hrole⟩
  have hmem : ({ m with content := stripForbidden m.content } : Message) ∈
      (injectSystemMessage (aopts.getD {}).systemMessage init).map
        (fun x => { x with content := stripForbidden x.content }) :=
    List.mem_map_of_mem _ (mem_injectSystemMessage _ _ _ hm)
  obtain ⟨e, he⟩ :=
    (bedrockPrompt_error_iff
      ((injectSystemMessage (aopts.getD {}).systemMessage init).map
        (fun x => { x with content := stripForbidden x.content }))
      (aopts.getD {}).responsePrefix).mpr
      ⟨{ m with content := stripForbidden m.content }, hmem, hrole⟩
  constructor
  · simp only [bedrockChatCompletion]
    rw [he]
  · refine ⟨e, ?_⟩
    simp only [bedrockChatCompletion]
    rw [he]

/-- Witness for C8: a tool-role message makes the prompt builder fail with
the error naming the tool role. -/
theorem unsupported_role_protocol_error_witness :
    ((∃ e, bedrockPrompt [⟨Role.tool, some "t", none, none⟩] none = .error e) ↔
      ∃ m ∈ [(⟨Role.tool, some "t", none, none⟩ : Message)], m.role = Role.tool) ∧
    (bedrockChatCompletion (fun _ _ => 1) {} "body"
        [⟨Role.tool, some "t", none, none⟩] none).requests = 0 ∧
    ∃ e, (bedrockChatCompletion (fun _ _ => 1) {} "body"
        [⟨Role.tool, some "t", none, none⟩] none).result = .error (.roleError e) :=
  ⟨(unsupported_role_protocol_error (fun _ _ => 1) {} "body"
      [⟨Role.tool, some "t", none, none⟩] [⟨Role.tool, some "t", none, none⟩] none none).1,
   (unsupported_role_protocol_error (fun _ _ => 1) {} "body"
      [⟨Role.tool, some "t", none, none⟩] [⟨Role.tool, some "t", none, none⟩] none none).2.2
     ⟨⟨Role.tool, some "t", none, none⟩, by decide, by decide⟩⟩

end LlmApi
